import Mathlib

/-!
Shallow embedding, in Lean 4, of the algorithmic kernel of `Fertility.py`
(repository Prasanna3528/ClusterAndFitAssgn), together with theorems about
the embedded functions.

Conventions used throughout:
* Python/numpy floating-point numbers are idealised as rationals (`ℚ`);
  the literal `1e-6` becomes `1 / 1000000`.
* A float operation that produces a non-finite result (`nan` or `inf`,
  e.g. division by zero, or `np.sqrt` of a negative number) is modelled
  as `Option.none`; a finite result `v` is `Option.some v`.
* A numpy parameter vector of length `n` is a function `Fin n → ℚ`, a
  covariance matrix is `Fin n → Fin n → ℚ`.
* The evaluation functions act on a single evaluation point `x : ℚ`;
  the numpy originals map the same scalar computation over an array of
  points elementwise.
-/

/-- Cubic polynomial model, from `polynomial_fit` (Fertility.py lines 25-36):
`return a * x**3 + b * x**2 + c * x + d`.  The four coefficients `a b c d`
are packed as a vector `p : Fin 4 → ℚ` because the caller `derivative`
unpacks a parameter array with `f(x, *up)`. -/
def polynomial_fit (x : ℚ) (p : Fin 4 → ℚ) : ℚ :=
  p 0 * x ^ 3 + p 1 * x ^ 2 + p 2 * x + p 3

/-- Perturbation width `val * abs(params[index])` with `val = 1e-6`, from
`derivative` (Fertility.py lines 73-75). -/
def pert_width {n : ℕ} (params : Fin n → ℚ) (index : Fin n) : ℚ :=
  (1 / 1000000) * |params index|

/-- Central finite difference with respect to one parameter, from
`derivative` (Fertility.py lines 59-79):
`delta[index] = val * abs(params[index])`, `up = params + delta`,
`low = params - delta`, `diff = 0.5 * (f(x, *up) - f(x, *low))`,
`return diff / (val * abs(params[index]))`.
When `params index = 0` the divisor is zero and the float quotient `0.0/0.0`
is `nan`; that non-finite outcome is modelled as `none`. -/
def derivative {n : ℕ} (x : ℚ) (f : ℚ → (Fin n → ℚ) → ℚ)
    (params : Fin n → ℚ) (index : Fin n) : Option ℚ :=
  let d := pert_width params index
  let delta : Fin n → ℚ := fun j => if j = index then d else 0
  let up : Fin n → ℚ := fun j => params j + delta j
  let low : Fin n → ℚ := fun j => params j - delta j
  let diff := (1 / 2) * (f x up - f x low)
  if d = 0 then none else some (diff / d)

/-- Variance accumulation loop of `error_range` (Fertility.py lines 51-56):
`var = 0`, then for `i` in `range(len(params))`: `deriv1 = derivative(x, f,
params, i)`; for `j` in `range(len(params))`: `deriv2 = derivative(x, f,
params, j)`; `var += deriv1 * deriv2 * cov_matrix[i, j]`.
A `nan` derivative poisons the accumulator, hence the `Option` plumbing. -/
def error_var {n : ℕ} (x : ℚ) (f : ℚ → (Fin n → ℚ) → ℚ)
    (params : Fin n → ℚ) (cov_matrix : Fin n → Fin n → ℚ) : Option ℚ :=
  (List.finRange n).foldl
    (fun acc i =>
      (derivative x f params i).bind fun deriv1 =>
        (List.finRange n).foldl
          (fun acc2 j =>
            (derivative x f params j).bind fun deriv2 =>
              acc2.map fun v => v + deriv1 * deriv2 * cov_matrix i j)
          acc)
    (some 0)

/-- Model of `np.sqrt` on a finite float: `nan` (hence `none`) on negative
input, the real square root otherwise. -/
noncomputable def np_sqrt (v : ℚ) : Option ℝ :=
  if v < 0 then none else some (Real.sqrt (v : ℝ))

/-- Delta-method error band at one evaluation point, from `error_range`
(Fertility.py lines 38-57): the accumulated variance followed by
`return np.sqrt(var)`. -/
noncomputable def error_range {n : ℕ} (x : ℚ) (f : ℚ → (Fin n → ℚ) → ℚ)
    (params : Fin n → ℚ) (cov_matrix : Fin n → Fin n → ℚ) : Option ℝ :=
  (error_var x f params cov_matrix).bind np_sqrt

/-- Closed form of the value produced by `derivative` when its divisor is
nonzero (the body of `derivative` without the degenerate branch), named so
that theorems can speak about the vector of finite differences. -/
def central_diff {n : ℕ} (x : ℚ) (f : ℚ → (Fin n → ℚ) → ℚ)
    (params : Fin n → ℚ) (index : Fin n) : ℚ :=
  ((1 / 2) * (f x (fun j => params j +
      (if j = index then pert_width params index else 0)) -
    f x (fun j => params j -
      (if j = index then pert_width params index else 0)))) /
    pert_width params index

lemma pert_width_ne_zero {n : ℕ} (params : Fin n → ℚ) (index : Fin n)
    (h : params index ≠ 0) : pert_width params index ≠ 0 := by
  simp [pert_width, abs_eq_zero, h]

lemma derivative_eq_some {n : ℕ} (x : ℚ) (f : ℚ → (Fin n → ℚ) → ℚ)
    (params : Fin n → ℚ) (index : Fin n) (h : params index ≠ 0) :
    derivative x f params index =
      some (central_diff x f params index) := by
  simp [derivative, central_diff, pert_width_ne_zero params index h]

lemma error_var_inner_eq {n : ℕ} (x : ℚ) (f : ℚ → (Fin n → ℚ) → ℚ)
    (params : Fin n → ℚ) (cov_matrix : Fin n → Fin n → ℚ)
    (D : Fin n → ℚ) (hD : ∀ j, derivative x f params j = some (D j))
    (i : Fin n) (d1 : ℚ) :
    ∀ (l : List (Fin n)) (v : ℚ),
      l.foldl
        (fun acc2 j =>
          (derivative x f params j).bind fun deriv2 =>
            acc2.map fun w => w + d1 * deriv2 * cov_matrix i j)
        (some v) =
      some (v + (l.map fun j => d1 * D j * cov_matrix i j).sum) := by
  intro l
  induction l with
  | nil => intro v; simp
  | cons j js ih =>
      intro v
      simp only [List.foldl_cons, hD j, Option.some_bind, Option.map_some',
        List.map_cons, List.sum_cons]
      rw [ih]
      exact congrArg some (by ring)

lemma error_var_eq_sum {n : ℕ} (x : ℚ) (f : ℚ → (Fin n → ℚ) → ℚ)
    (params : Fin n → ℚ) (cov_matrix : Fin n → Fin n → ℚ)
    (D : Fin n → ℚ) (hD : ∀ j, derivative x f params j = some (D j)) :
    error_var x f params cov_matrix =
      some (∑ i, ∑ j, D i * D j * cov_matrix i j) := by
  have houter :
      ∀ (l : List (Fin n)) (v : ℚ),
        l.foldl
          (fun acc i =>
            (derivative x f params i).bind fun deriv1 =>
              (List.finRange n).foldl
                (fun acc2 j =>
                  (derivative x f params j).bind fun deriv2 =>
                    acc2.map fun w => w + deriv1 * deriv2 * cov_matrix i j)
                acc)
          (some v) =
        some (v + (l.map fun i =>
          ((List.finRange n).map fun j => D i * D j * cov_matrix i j).sum).sum) := by
    intro l
    induction l with
    | nil => intro v; simp
    | cons i is ih =>
        intro v
        simp only [List.foldl_cons, hD i, Option.some_bind, List.map_cons,
          List.sum_cons]
        rw [error_var_inner_eq x f params cov_matrix D hD i (D i), ih]
        exact congrArg some (add_assoc v _ _)
  have h0 := houter (List.finRange n) 0
  simp only [error_var, h0, zero_add]
  congr 1

/-- Analytic partial derivative of the cubic model with respect to each of
its four coefficients: `x^3`, `x^2`, `x`, `1`.  This is the spec-side
formula that the finite-difference estimator is compared against. -/
def cubic_basis (x : ℚ) : Fin 4 → ℚ := fun i =>
  if i = 0 then x ^ 3 else if i = 1 then x ^ 2 else if i = 2 then x else 1

lemma derivative_polynomial_fit_eq_basis (x : ℚ) (p : Fin 4 → ℚ)
    (index : Fin 4) (h : p index ≠ 0) :
    derivative x polynomial_fit p index = some (cubic_basis x index) := by
  have hd : pert_width p index ≠ 0 := pert_width_ne_zero p index h
  rw [derivative_eq_some x polynomial_fit p index h]
  congr 1
  unfold central_diff
  rw [div_eq_iff hd]
  fin_cases index <;>
    · simp +decide [polynomial_fit, cubic_basis]
      try ring

lemma derivative_ones_at_one (i : Fin 4) :
    derivative 1 polynomial_fit (fun _ => 1) i = some 1 := by
  rw [derivative_polynomial_fit_eq_basis 1 (fun _ => 1) i one_ne_zero]
  fin_cases i <;> simp +decide [cubic_basis]

/-- C1: at each evaluation point, `error_range` returns the square root of
the delta-method bilinear form `Σ_i Σ_j D_i(x) * D_j(x) * cov[i,j]`, where
`D_i(x)` is the finite-difference partial derivative computed by
`derivative` (a negative form, whose float square root would be `nan`, is
modelled by `np_sqrt` as `none`). -/
theorem error_range_eq_sqrt_bilinear_form {n : ℕ} (x : ℚ)
    (f : ℚ → (Fin n → ℚ) → ℚ) (params : Fin n → ℚ)
    (cov_matrix : Fin n → Fin n → ℚ) (D : Fin n → ℚ)
    (hD : ∀ i, derivative x f params i = some (D i)) :
    error_range x f params cov_matrix =
      np_sqrt (∑ i, ∑ j, D i * D j * cov_matrix i j) := by
  rw [error_range, error_var_eq_sum x f params cov_matrix D hD,
    Option.some_bind]

/-- Witness for C1 at `x = 1`, the all-ones parameter vector and the
all-ones covariance matrix; every finite difference of the cubic model at
`x = 1` equals `1`. -/
theorem error_range_eq_sqrt_bilinear_form_witness :
    (∀ i : Fin 4, derivative 1 polynomial_fit (fun _ => 1) i = some 1) ∧
    error_range 1 polynomial_fit (fun _ => 1) (fun _ _ => 1) =
      np_sqrt (∑ i : Fin 4, ∑ j : Fin 4, (1 : ℚ) * 1 * 1) :=
  ⟨derivative_ones_at_one,
    error_range_eq_sqrt_bilinear_form 1 polynomial_fit (fun _ => 1)
      (fun _ _ => 1) (fun _ => 1) derivative_ones_at_one⟩

/-- C2: the symmetric central difference is exact for a model linear in its
parameters: whenever `p index ≠ 0`, `derivative` applied to the cubic model
returns exactly the analytic partial derivative `cubic_basis x index`
(`x^3`, `x^2`, `x` or `1`); consequently, when every entry is nonzero,
`error_range` coincides exactly with the analytic delta-method formula
(hence agrees with it within any positive tolerance). -/
theorem derivative_polynomial_fit_exact (x : ℚ) (p : Fin 4 → ℚ)
    (cov_matrix : Fin 4 → Fin 4 → ℚ) :
    (∀ index, p index ≠ 0 →
      derivative x polynomial_fit p index = some (cubic_basis x index)) ∧
    ((∀ index, p index ≠ 0) →
      error_range x polynomial_fit p cov_matrix =
        np_sqrt (∑ i, ∑ j,
          cubic_basis x i * cubic_basis x j * cov_matrix i j)) := by
  refine ⟨fun index h => derivative_polynomial_fit_eq_basis x p index h,
    fun hall => ?_⟩
  rw [error_range, error_var_eq_sum x polynomial_fit p cov_matrix
    (cubic_basis x) (fun i => derivative_polynomial_fit_eq_basis x p i
      (hall i)), Option.some_bind]

/-- Witness for C2 at `x = 2` and the all-ones parameter vector: the
finite difference with respect to the leading coefficient is exactly
`2^3 = 8`, and the error band matches the analytic bilinear form. -/
theorem derivative_polynomial_fit_exact_witness :
    derivative 2 polynomial_fit (fun _ => 1) 0 = some (cubic_basis 2 0) ∧
    error_range 2 polynomial_fit (fun _ => 1) (fun _ _ => 1) =
      np_sqrt (∑ i, ∑ j,
        cubic_basis 2 i * cubic_basis 2 j * (1 : ℚ)) :=
  ⟨(derivative_polynomial_fit_exact 2 (fun _ => 1) (fun _ _ => 1)).1 0
      one_ne_zero,
    (derivative_polynomial_fit_exact 2 (fun _ => 1) (fun _ _ => 1)).2
      (fun _ => one_ne_zero)⟩

/-- C4: when `params index = 0` the perturbation width
`val * abs(params[index])` is exactly zero, the central-difference
quotient divides by zero with no fallback to an absolute epsilon, and the
result is not a finite number (the float `0.0 / 0.0 = nan`, modelled as
`none`). -/
theorem derivative_zero_param_not_finite {n : ℕ} (x : ℚ)
    (f : ℚ → (Fin n → ℚ) → ℚ) (params : Fin n → ℚ) (index : Fin n)
    (h : params index = 0) :
    pert_width params index = 0 ∧ derivative x f params index = none := by
  have hw : pert_width params index = 0 := by simp [pert_width, h]
  exact ⟨hw, by simp [derivative, hw]⟩

/-- Witness for C4: the parameter vector `[0, 1, 1, 1]` has a zero entry at
index `0`, and there the derivative of the cubic model degenerates. -/
theorem derivative_zero_param_not_finite_witness :
    pert_width ![(0 : ℚ), 1, 1, 1] 0 = 0 ∧
    derivative 5 polynomial_fit ![(0 : ℚ), 1, 1, 1] 0 = none :=
  derivative_zero_param_not_finite 5 polynomial_fit ![(0 : ℚ), 1, 1, 1] 0
    rfl

/-- C9: for a parameter vector with all entries nonzero and a symmetric
positive-semidefinite covariance matrix, the variance accumulated by
`error_range` is the quadratic form `d^T C d ≥ 0` at the vector of finite
differences, so the square root is real and the returned error is a
non-negative finite number: the `nan` branch of `np_sqrt` is unreachable. -/
theorem error_range_nonneg_of_psd {n : ℕ} (x : ℚ)
    (f : ℚ → (Fin n → ℚ) → ℚ) (params : Fin n → ℚ)
    (cov_matrix : Fin n → Fin n → ℚ)
    (hnz : ∀ i, params i ≠ 0)
    (hsym : ∀ i j, cov_matrix i j = cov_matrix j i)
    (hpsd : ∀ z : Fin n → ℚ, 0 ≤ ∑ i, ∑ j, z i * z j * cov_matrix i j) :
    ∃ e : ℝ, error_range x f params cov_matrix = some e ∧ 0 ≤ e := by
  have hD : ∀ i, derivative x f params i =
      some (central_diff x f params i) :=
    fun i => derivative_eq_some x f params i (hnz i)
  have hv : 0 ≤ ∑ i, ∑ j,
      central_diff x f params i * central_diff x f params j *
        cov_matrix i j := hpsd (central_diff x f params)
  refine ⟨Real.sqrt ((∑ i, ∑ j,
      central_diff x f params i * central_diff x f params j *
        cov_matrix i j : ℚ) : ℝ), ?_, Real.sqrt_nonneg _⟩
  rw [error_range,
    error_var_eq_sum x f params cov_matrix (central_diff x f params) hD,
    Option.some_bind]
  simp only [np_sqrt, if_neg (not_lt.mpr hv)]

/-- Witness for C9 with the all-ones covariance matrix, which is symmetric
and positive semidefinite since its quadratic form is `(Σ z_i)^2`. -/
theorem error_range_nonneg_of_psd_witness :
    ∃ e : ℝ, error_range 3 polynomial_fit (fun _ => 1) (fun _ _ => 1) =
      some e ∧ 0 ≤ e :=
  error_range_nonneg_of_psd 3 polynomial_fit (fun _ => 1) (fun _ _ => 1)
    (fun _ => one_ne_zero) (fun _ _ => rfl)
    (fun z => by
      have h := sq_nonneg (∑ i : Fin 4, z i)
      rw [sq, Finset.sum_mul_sum] at h
      simpa using h)

/-- Robust-scaler state: per-column median and interquartile range for the
two feature columns.  Modelled from the spec: the scaler object is
`sklearn.preprocessing.RobustScaler` (Fertility.py line 121), whose source
is not part of this repository; spec section 4.2 defines `fit` as
computing per-column median and IQR. -/
structure ScalerState where
  median : Fin 2 → ℚ
  iqr : Fin 2 → ℚ

/-- Modelled from the spec: `transform(data, state)` returns
`(x - median) / IQR` elementwise (spec section 4.2); the sklearn
implementation is outside the repository. -/
def transform {N : ℕ} (st : ScalerState)
    (X : Fin N → Fin 2 → ℚ) : Fin N → Fin 2 → ℚ :=
  fun r c => (X r c - st.median c) / st.iqr c

/-- Modelled from the spec: `inverse_transform(data, state)` reverses the
scaling exactly: `x * IQR + median` (spec section 4.2); the sklearn
implementation is outside the repository. -/
def inverse_transform {N : ℕ} (st : ScalerState)
    (Y : Fin N → Fin 2 → ℚ) : Fin N → Fin 2 → ℚ :=
  fun r c => Y r c * st.iqr c + st.median c

/-- C3: with the scaler state fitted once and not refit in between,
`inverse_transform` undoes `transform` exactly on every N-by-2 matrix,
for any state whose per-column IQR is nonzero (the fitted sklearn scaler
always satisfies this: it replaces a zero IQR by 1). -/
theorem scaler_round_trip {N : ℕ} (st : ScalerState)
    (X : Fin N → Fin 2 → ℚ) (h : ∀ c, st.iqr c ≠ 0) :
    inverse_transform st (transform st X) = X := by
  funext r c
  simp only [transform, inverse_transform]
  rw [div_mul_cancel₀ _ (h c)]
  ring

/-- Witness for C3: a concrete state with medians 3 and IQRs 2 on a
concrete 2-by-2 matrix. -/
theorem scaler_round_trip_witness :
    inverse_transform ⟨fun _ => 3, fun _ => 2⟩
      (transform ⟨fun _ => 3, fun _ => 2⟩
        (fun (r : Fin 2) (c : Fin 2) => (r.val : ℚ) + c.val)) =
      fun (r : Fin 2) (c : Fin 2) => (r.val : ℚ) + c.val :=
  scaler_round_trip ⟨fun _ => 3, fun _ => 2⟩
    (fun r c => (r.val : ℚ) + c.val) (fun _ => by norm_num)

/-- Row of the fertility table restricted to the fields the claims use:
the entity name and the 1960 and 2020 values; a missing (`NaN`) cell is
`none`.  From the wide table read at Fertility.py line 99. -/
structure FerRow where
  country : String
  v1960 : Option ℚ
  v2020 : Option ℚ

/-- Upstream filter, Fertility.py line 102:
`data_Fer[(data_Fer["1960"].notna()) & (data_Fer["2020"].notna())]` keeps a
row exactly when both year columns are non-null. -/
def row_filter (r : FerRow) : Bool := r.v1960.isSome && r.v2020.isSome

/-- The filtered table, lines 102-103 (the `reset_index` only renumbers). -/
def data_filtered (df : List FerRow) : List FerRow := df.filter row_filter

/-- Change-rate arithmetic, Fertility.py lines 107-108:
`100.0/60.0 * (data_Fer["2020"] - data_Fer["1960"]) / data_Fer["1960"]`.
A zero baseline makes the float division produce a non-finite value
(`inf` or `nan`), modelled as `none`. -/
def change_rate (v1960 v2020 : ℚ) : Option ℚ :=
  if v1960 = 0 then none else some (100 / 60 * (v2020 - v1960) / v1960)

/-- The `Change` cell computed for one row of the source table (null cells
propagate as null, as in pandas). -/
def change_of_row (r : FerRow) : Option ℚ :=
  match r.v1960, r.v2020 with
  | some b, some e => change_rate b e
  | _, _ => none

/-- C5 counterexample: a row whose baseline is exactly `0` (non-null)
passes the upstream filter of line 102 and reaches the change-rate
division, where the division by zero produces a non-finite value; so the
filter does not exclude zero baselines. -/
theorem change_rate_zero_baseline_reachable :
    row_filter ⟨"Z", some 0, some 2⟩ = true ∧
    (⟨"Z", some 0, some 2⟩ : FerRow).v1960 = some 0 ∧
    change_of_row ⟨"Z", some 0, some 2⟩ = none := by
  refine ⟨rfl, rfl, ?_⟩
  simp [change_of_row, change_rate]

/-- C5 (amended): the upstream filter guarantees that both the baseline
and the end value of every surviving entity are non-null, but not that the
baseline is nonzero: the change-rate division degenerates exactly on the
zero baselines that the filter lets through. -/
theorem row_filter_guarantees (r : FerRow) (h : row_filter r = true) :
    r.v1960.isSome = true ∧ r.v2020.isSome = true ∧
    (change_of_row r = none ↔ r.v1960 = some 0) := by
  have h' := h
  unfold row_filter at h'
  rw [Bool.and_eq_true] at h'
  obtain ⟨h1, h2⟩ := h'
  refine ⟨h1, h2, ?_⟩
  obtain ⟨b, hb⟩ := Option.isSome_iff_exists.mp h1
  obtain ⟨e, he⟩ := Option.isSome_iff_exists.mp h2
  cases r
  simp only at hb he
  subst hb
  subst he
  simp only [change_of_row, change_rate]
  by_cases hb0 : b = 0
  · subst hb0; simp
  · simp [hb0]

/-- Witness for the amended C5 at a row with baseline 2 and end value
7/2. -/
theorem row_filter_guarantees_witness :
    (⟨"A", some 2, some (7 / 2)⟩ : FerRow).v1960.isSome = true ∧
    (⟨"A", some 2, some (7 / 2)⟩ : FerRow).v2020.isSome = true ∧
    (change_of_row ⟨"A", some 2, some (7 / 2)⟩ = none ↔
      (⟨"A", some 2, some (7 / 2)⟩ : FerRow).v1960 = some 0) :=
  row_filter_guarantees ⟨"A", some 2, some (7 / 2)⟩ rfl

/-- C6: for nonzero baseline the computed change rate is exactly
`(100/span) * (value_end - value_start) / value_start` with span `= 60`;
in particular baseline `2.0` and end value `3.5` give `1.25 = 5/4`. -/
theorem change_rate_formula :
    (∀ b e : ℚ, b ≠ 0 →
      change_rate b e = some (100 / 60 * (e - b) / b)) ∧
    change_rate 2 (7 / 2) = some (5 / 4) := by
  constructor
  · intro b e h
    simp [change_rate, h]
  · norm_num [change_rate]

/-- Witness for C6: the general formula applied at baseline 3, end 1. -/
theorem change_rate_formula_witness :
    change_rate 3 1 = some (100 / 60 * (1 - 3) / 3) :=
  change_rate_formula.1 3 1 (by norm_num)

/-- One silhouette evaluation, from `one_silhouette` (Fertility.py lines
81-96): build a k-means model with `n_init = 20` restarts, fit it on `xy`,
and score the resulting labels on the same `xy`.  The sklearn k-means
fitter and silhouette scorer are external collaborators, abstracted as the
arguments `kmeans_labels` (taking the restart count, the cluster count and
the data) and `silhouette_score`. -/
def one_silhouette (kmeans_labels : ℕ → ℕ → List (ℚ × ℚ) → List ℕ)
    (silhouette_score : List (ℚ × ℚ) → List ℕ → ℚ)
    (xy : List (ℚ × ℚ)) (num_clusters : ℕ) : ℚ :=
  silhouette_score xy (kmeans_labels 20 num_clusters xy)

/-- Silhouette sweep, Fertility.py lines 136-138:
`for ic in range(2, 11): score = one_silhouette(norm, ic)`, reported as
one `(ic, score)` pair per candidate cluster count (`range(2, 11)` is the
nine integers 2..10). -/
def silhouette_sweep (kmeans_labels : ℕ → ℕ → List (ℚ × ℚ) → List ℕ)
    (silhouette_score : List (ℚ × ℚ) → List ℕ → ℚ)
    (xy : List (ℚ × ℚ)) : List (ℕ × ℚ) :=
  (List.range' 2 9).map fun ic =>
    (ic, one_silhouette kmeans_labels silhouette_score xy ic)

/-- Cluster count used by the clustering step after the sweep
(Fertility.py line 141): the constant `3`, chosen by a human from the
printed scores, not computed from them. -/
def n_clusters : ℕ := 3

/-- C7: the sweep produces exactly one `(k, score)` pair for each
`k = 2, ..., 10` (nine values, no others); each score is the silhouette of
a 20-restart k-means fit on the same scaled input it is scored on; and no
`k` is selected from the scores — the subsequent fit uses the constant
`n_clusters = 3` whatever the scores are. -/
theorem silhouette_sweep_spec
    (kmeans_labels : ℕ → ℕ → List (ℚ × ℚ) → List ℕ)
    (silhouette_score : List (ℚ × ℚ) → List ℕ → ℚ)
    (xy : List (ℚ × ℚ)) :
    (silhouette_sweep kmeans_labels silhouette_score xy).map Prod.fst =
      [2, 3, 4, 5, 6, 7, 8, 9, 10] ∧
    (∀ p ∈ silhouette_sweep kmeans_labels silhouette_score xy,
      p.2 = silhouette_score xy (kmeans_labels 20 p.1 xy)) ∧
    (silhouette_sweep kmeans_labels silhouette_score xy).length = 9 ∧
    n_clusters = 3 := by
  refine ⟨rfl, ?_, rfl, rfl⟩
  intro p hp
  obtain ⟨ic, _, rfl⟩ := List.mem_map.mp hp
  rfl

/-- Witness for C7 with trivial stand-ins for the external fitter and
scorer on an empty data set. -/
theorem silhouette_sweep_spec_witness :
    (silhouette_sweep (fun _ _ _ => []) (fun _ _ => 0) []).map Prod.fst =
      [2, 3, 4, 5, 6, 7, 8, 9, 10] ∧
    (silhouette_sweep (fun _ _ _ => []) (fun _ _ => 0) []).length = 9 :=
  ⟨(silhouette_sweep_spec (fun _ _ _ => []) (fun _ _ => 0) []).1,
    (silhouette_sweep_spec (fun _ _ _ => []) (fun _ _ => 0) []).2.2.1⟩

/-- Future evaluation points, Fertility.py line 226:
`fut_x = np.arange(max(x_val) + 1, 2041)` — the integers from one past
the last observed year up to 2040, parametrised by the last observed year
`m = max(x_val)` (the observed years are integral). -/
def fut_x (m : ℤ) : List ℤ :=
  (List.range (2041 - (m + 1)).toNat).map fun (i : ℕ) => m + 1 + (i : ℤ)

/-- Future predictions, Fertility.py line 227:
`fut_y = polynomial_fit(fut_x, *popt)` — the already-fitted cubic
evaluated with the same parameter vector `popt` produced by the single
`curve_fit` call (line 220), at every future year; no refitting. -/
def fut_y (popt : Fin 4 → ℚ) (m : ℤ) : List ℚ :=
  (fut_x m).map fun (yr : ℤ) => polynomial_fit (yr : ℚ) popt

/-- C8: for a last observed year `m < 2040`, the extrapolation points are
exactly the integers `m + 1, ..., 2040`, starting at `m + 1`, and the
future values are the fitted cubic evaluated with the one parameter vector
`popt` at those points — in particular the first future value is the same
polynomial, with the same parameters, evaluated at `m + 1`, so the curve
continues the in-sample fit with no discontinuity. -/
theorem fut_extrapolation_spec (m : ℤ) (popt : Fin 4 → ℚ)
    (hm : m < 2040) :
    (∀ k : ℤ, k ∈ fut_x m ↔ m + 1 ≤ k ∧ k ≤ 2040) ∧
    (fut_x m).head? = some (m + 1) ∧
    fut_y popt m =
      (fut_x m).map (fun (yr : ℤ) => polynomial_fit (yr : ℚ) popt) ∧
    (fut_y popt m).head? = some (polynomial_fit ((m + 1 : ℤ) : ℚ) popt) := by
  have hmem : ∀ k : ℤ, k ∈ fut_x m ↔ m + 1 ≤ k ∧ k ≤ 2040 := by
    intro k
    simp only [fut_x, List.mem_map, List.mem_range]
    constructor
    · rintro ⟨i, hi, rfl⟩
      omega
    · intro hk
      exact ⟨(k - (m + 1)).toNat, by omega, by omega⟩
  have hlen : (2041 - (m + 1)).toNat = (2040 - m).toNat := by omega
  have hpos : ∃ t : ℕ, (2041 - (m + 1)).toNat = t + 1 := by
    refine ⟨(2041 - (m + 1)).toNat - 1, ?_⟩
    omega
  obtain ⟨t, ht⟩ := hpos
  have hhead : (fut_x m).head? = some (m + 1) := by
    rw [fut_x, ht, List.range_succ_eq_map]
    simp
  refine ⟨hmem, hhead, rfl, ?_⟩
  rw [fut_y, List.head?_map, hhead]
  rfl

/-- Witness for C8 at last observed year 2038: the future points are 2039
and 2040 only. -/
theorem fut_extrapolation_spec_witness :
    ((2040 : ℤ) ∈ fut_x 2038 ↔
      (2038 : ℤ) + 1 ≤ 2040 ∧ (2040 : ℤ) ≤ 2040) ∧
    (fut_x 2038).head? = some (2038 + 1) :=
  ⟨(fut_extrapolation_spec 2038 (fun _ => 1) (by norm_num)).1 2040,
    (fut_extrapolation_spec 2038 (fun _ => 1) (by norm_num)).2.1⟩

/-- Row of the two-column feature table `change` built at Fertility.py
line 105, with its `Change` column (absent until lines 107-108 fill it). -/
structure ChangeRow where
  country : String
  v1960 : Option ℚ
  chg : Option ℚ

/-- Projection-and-copy, Fertility.py line 105:
`change = data_Fer[["Country Name", "1960"]].copy()` — an independent
two-column table; the `Change` column does not exist yet. -/
def change_copy (df : List FerRow) : List ChangeRow :=
  df.map fun r => ⟨r.country, r.v1960, none⟩

/-- Column assignment, Fertility.py lines 107-108:
`change["Change"] = 100.0/60.0 * (data_Fer["2020"] - data_Fer["1960"]) /
data_Fer["1960"]`, aligned row by row with the source table; because
`change` was created with `.copy()`, only the `change` table is written. -/
def assign_change (c : List ChangeRow) (df : List FerRow) : List ChangeRow :=
  List.zipWith (fun cr r => { cr with chg := change_of_row r }) c df

/-- The feature-building step as a transformer on the pair (filtered
source table, feature table); the source component is what `data_Fer`
holds after lines 105-108 ran. -/
def build_features (df : List FerRow) : List FerRow × List ChangeRow :=
  (df, assign_change (change_copy df) df)

lemma assign_change_map_country (df : List FerRow) :
    (assign_change (change_copy df) df).map (fun c => c.country) =
      df.map fun r => r.country := by
  induction df with
  | nil => rfl
  | cons r rs ih => simpa [assign_change, change_copy] using ih

lemma assign_change_map_v1960 (df : List FerRow) :
    (assign_change (change_copy df) df).map (fun c => c.v1960) =
      df.map fun r => r.v1960 := by
  induction df with
  | nil => rfl
  | cons r rs ih => simpa [assign_change, change_copy] using ih

/-- C10: building the feature table does not mutate its source: after the
`Change` column is added, the filtered source table is unchanged, and the
country-name and 1960 columns of the feature table still equal those of
the source, row for row. -/
theorem build_features_frame (df : List FerRow) :
    (build_features df).1 = df ∧
    (build_features df).2.map (fun c => c.country) =
      df.map (fun r => r.country) ∧
    (build_features df).2.map (fun c => c.v1960) =
      df.map (fun r => r.v1960) :=
  ⟨rfl, assign_change_map_country df, assign_change_map_v1960 df⟩
